import Mathlib

/-!
Shallow embedding of the `photography` media importer (`src/photography/importer.py`).

The embedding models the destination-decision algorithm of `Importer._decide`,
its date helper `Importer._library_destination_for`, the journaled mover and
`Importer.ingest`.  File names are modelled as ASCII strings; timestamps as
integer epoch seconds; the filesystem as an explicit record of staging entries,
directory contents and existing directories.  Glob patterns built from file
stems are modelled for names without glob metacharacters: the pattern
`<stem>.dng` is case-insensitive name equality and `<stem>*` is a
case-insensitive prefix test, matching `Path.glob(..., case_sensitive=False)`
on such names.
-/

instance {α β : Type} [DecidableEq α] [DecidableEq β] : DecidableEq (Except α β) :=
  fun a b =>
    match a, b with
    | Except.ok x, Except.ok y =>
      if h : x = y then Decidable.isTrue (congrArg Except.ok h)
      else Decidable.isFalse (fun hh => h (Except.ok.inj hh))
    | Except.error x, Except.error y =>
      if h : x = y then Decidable.isTrue (congrArg Except.error h)
      else Decidable.isFalse (fun hh => h (Except.error.inj hh))
    | Except.ok _, Except.error _ => Decidable.isFalse (fun hh => Except.noConfusion hh)
    | Except.error _, Except.ok _ => Decidable.isFalse (fun hh => Except.noConfusion hh)

/-- Numeric value of an ASCII digit character (meaningful when the character is a digit). -/
def dval (c : Char) : Nat := c.toNat - 48

/-- ASCII digit test, as used by Python `str.isdigit` on ASCII file names. -/
def isDigitChar (c : Char) : Bool := decide (48 ≤ c.toNat ∧ c.toNat ≤ 57)

/-- Python `name.startswith(".")`. -/
def isDotName (s : String) : Bool :=
  match s.data with
  | '.' :: _ => true
  | _ => false

/-- Python `name.lstrip(".")`: strips every leading dot. -/
def dropDots (s : String) : String :=
  String.mk (s.data.dropWhile (fun c => decide (c = '.')))

/-- Python `name.split("_")`: split on every underscore, keeping empty segments. -/
def splitUnder : List Char → List (List Char)
  | [] => [[]]
  | c :: rest =>
    match splitUnder rest with
    | [] => [[]]
    | seg :: segs => if c = '_' then [] :: seg :: segs else (c :: seg) :: segs

/-- The second element of `name.split("_")`, when it exists. -/
def secondSeg (s : String) : Option (List Char) := (splitUnder s.data)[1]?

/-- Python `str.isdigit`: nonempty and all digits. -/
def pyIsDigit (l : List Char) : Bool := decide (l ≠ []) && l.all isDigitChar

/-- Stem and suffix of a file name, following `pathlib.PurePath.stem` / `.suffix`:
the suffix starts at the last dot provided that dot is neither the first nor the
last character of the name. -/
def pySplitExt (l : List Char) : List Char × List Char :=
  let tl := l.reverse.takeWhile (fun c => decide (c ≠ '.'))
  if tl.length ≠ 0 ∧ tl.length + 2 ≤ l.length then
    (l.take (l.length - 1 - tl.length), '.' :: tl.reverse)
  else (l, [])

/-- Stem of a file name, as `pathlib` computes it. -/
def pyStem (s : String) : List Char := (pySplitExt s.data).1

/-- Suffix of a file name (with the dot, or empty), as `pathlib` computes it. -/
def pySuffix (s : String) : List Char := (pySplitExt s.data).2

/-- Python `stem.rpartition("~")` reduced to the pair (before, after): splits at
the last tilde; when no tilde occurs the "before" part is empty and the "after"
part is the whole input, exactly as `rpartition` returns `("", "", stem)`. -/
def rpartTilde (l : List Char) : List Char × List Char :=
  if (l.reverse.takeWhile (fun c => decide (c ≠ '~'))).length = l.length then ([], l)
  else (l.take (l.length - 1 - (l.reverse.takeWhile (fun c => decide (c ≠ '~'))).length),
    (l.reverse.takeWhile (fun c => decide (c ≠ '~'))).reverse)

/-- Gregorian leap-year test, as in Python `datetime`. -/
def isLeap (y : Nat) : Bool := decide (y % 4 = 0 ∧ (y % 100 ≠ 0 ∨ y % 400 = 0))

/-- Number of days of month `m` of year `y` (meaningful for `1 ≤ m ≤ 12`). -/
def daysInMonth (y m : Nat) : Nat :=
  if m = 2 then (if isLeap y then 29 else 28)
  else if m = 4 ∨ m = 6 ∨ m = 9 ∨ m = 11 then 30
  else 31

/-- CPython `strptime` month regex alternative `1[0-2]|0[1-9]`, matched at the
head of the input, returning the month value. -/
def monthTwo : List Char → Option Nat
  | a :: b :: _ =>
    if a = '1' ∧ (b = '0' ∨ b = '1' ∨ b = '2') then some (10 + dval b)
    else if a = '0' ∧ isDigitChar b = true ∧ b ≠ '0' then some (dval b)
    else none
  | _ => none

/-- CPython `strptime` month regex alternative `[1-9]` at the head of the input. -/
def monthOne : List Char → Option Nat
  | a :: _ => if isDigitChar a = true ∧ a ≠ '0' then some (dval a) else none
  | _ => none

/-- CPython `strptime` day regex two-character alternatives
`3[01]|[12]\d|0[1-9]`, tried in that order at the head of the input. -/
def dayTwo : List Char → Option Nat
  | a :: b :: _ =>
    if a = '3' ∧ (b = '0' ∨ b = '1') then some (30 + dval b)
    else if (a = '1' ∨ a = '2') ∧ isDigitChar b = true then some (10 * dval a + dval b)
    else if a = '0' ∧ isDigitChar b = true ∧ b ≠ '0' then some (dval b)
    else none
  | _ => none

/-- CPython `strptime` day regex alternative `[1-9]` at the head of the input. -/
def dayOne : List Char → Option Nat
  | a :: _ => if isDigitChar a = true ∧ a ≠ '0' then some (dval a) else none
  | _ => none

/-- Day match with backtracking order: the two-character alternatives first,
then the one-character alternative.  Returns the day and consumed length. -/
def dayMatch (r : List Char) : Option (Nat × Nat) :=
  match dayTwo r with
  | some d => some (d, 2)
  | none =>
    match dayOne r with
    | some d => some (d, 1)
    | none => none

/-- Month-day match starting from the one-character month alternative. -/
def mdOne (r : List Char) : Option (Nat × Nat × Nat) :=
  match monthOne r with
  | some m =>
    match dayMatch (r.drop 1) with
    | some (d, k) => some (m, d, 1 + k)
    | none => none
  | none => none

/-- Month-day match with full regex backtracking order: the two-character month
alternatives first (with both day alternatives), then the one-character month.
Returns month, day and total consumed length. -/
def mdMatch (r : List Char) : Option (Nat × Nat × Nat) :=
  match monthTwo r with
  | some m =>
    match dayMatch (r.drop 2) with
    | some (d, k) => some (m, d, 2 + k)
    | none => mdOne r
  | none => mdOne r

/-- CPython `datetime.strptime(s, "%Y%m%d")`: the regex
`(\d{4})(1[0-2]|0[1-9]|[1-9])(3[01]|[12]\d|0[1-9]|[1-9])` is matched at the
start of the string with leftmost-alternative backtracking; `strptime` then
requires the match to consume the whole string ("unconverted data remains"
otherwise) and `datetime` validation requires year at least 1 and the day to
exist in the month.  Note the month and day may be matched from one character
each, so for example `"202411"` parses as 2024-01-01. -/
def parseYmd (s : List Char) : Option (Nat × Nat × Nat) :=
  match s with
  | a :: b :: c :: d :: rest =>
    if isDigitChar a = true ∧ isDigitChar b = true ∧ isDigitChar c = true ∧ isDigitChar d = true then
      let y := ((dval a * 10 + dval b) * 10 + dval c) * 10 + dval d
      match mdMatch rest with
      | some (m, dd, k) =>
        if k = rest.length ∧ 1 ≤ y ∧ dd ≤ daysInMonth y m then some (y, m, dd) else none
      | none => none
    else none
  | _ => none

/-- Modelled from the spec: a strict `YYYYMMDD` date, eight digits whose
four-digit year, two-digit month and two-digit day form a valid calendar date.
Used to state the spec-level notion of a "valid YYYYMMDD date", to be compared
with the code's lenient `strptime` parse `parseYmd`. -/
def eightDigitDate (s : List Char) : Option (Nat × Nat × Nat) :=
  match s with
  | [a, b, c, d, e, f, g, h] =>
    if (isDigitChar a = true ∧ isDigitChar b = true ∧ isDigitChar c = true ∧ isDigitChar d = true) ∧
       (isDigitChar e = true ∧ isDigitChar f = true ∧ isDigitChar g = true ∧ isDigitChar h = true) then
      let y := ((dval a * 10 + dval b) * 10 + dval c) * 10 + dval d
      let m := dval e * 10 + dval f
      let dd := dval g * 10 + dval h
      if 1 ≤ y ∧ 1 ≤ m ∧ m ≤ 12 ∧ 1 ≤ dd ∧ dd ≤ daysInMonth y m then some (y, m, dd) else none
    else none
  | _ => none

/-- Civil date (year, month, day) of a count of days since 1970-01-01,
proleptic Gregorian calendar (standard days-to-civil algorithm, as computed by
`datetime.fromtimestamp(..., tz=UTC)`). -/
def civilFromDays (z : Int) : Nat × Nat × Nat :=
  let s : Int := z + 719468
  let era : Int := Int.fdiv s 146097
  let doe : Nat := (s - era * 146097).toNat
  let yoe : Nat := (doe - doe / 1460 + doe / 36524 - doe / 146096) / 365
  let doy : Nat := doe - (365 * yoe + yoe / 4 - yoe / 100)
  let mp : Nat := (5 * doy + 2) / 153
  let d : Nat := doy - (153 * mp + 2) / 5 + 1
  let m : Nat := if mp < 10 then mp + 3 else mp - 9
  let y : Int := (yoe : Int) + era * 400 + (if m ≤ 2 then 1 else 0)
  (y.toNat, m, d)

/-- UTC calendar date of an epoch timestamp in seconds. -/
def civilFromSeconds (t : Int) : Nat × Nat × Nat := civilFromDays (Int.fdiv t 86400)

/-- Immutable importer configuration: the two root paths and the trust cutoff
(`Importer.library`, `Importer.quarantine`, `Importer._newest_trusted_mtime`,
the latter as an epoch timestamp). -/
structure Config where
  library : String
  quarantine : String
  cutoff : Int
deriving DecidableEq

/-- A regular file of the staging directory: its name and its mtime
(`none` models `stat` raising `FileNotFoundError`). -/
structure StagedFile where
  name : String
  mtime : Option Int
deriving DecidableEq

/-- The four shapes of destination path `Importer._decide` returns:
`<quarantine>/trash/<name>`, `<quarantine>/confirm/trash/<name>`,
`<library>/<YYYY>/<MM>/<DD>/<name>` and `<quarantine>/<name>`. -/
inductive Dest where
  | trash (name : String)
  | confirmTrash (name : String)
  | library (y m d : Nat) (name : String)
  | quarantine (name : String)
deriving DecidableEq

/-- Filesystem state visible to the importer: the staging directory's regular
files, the files of every other directory as (directory, file name) pairs, and
the set of directories that exist. -/
structure FS where
  staging : List StagedFile
  entries : List (String × String)
  dirs : List String
deriving DecidableEq

/-- Decimal digit character. -/
def digitChar : Nat → Char
  | 0 => '0'
  | 1 => '1'
  | 2 => '2'
  | 3 => '3'
  | 4 => '4'
  | 5 => '5'
  | 6 => '6'
  | 7 => '7'
  | 8 => '8'
  | _ => '9'

/-- Two-digit zero-padded decimal rendering (`%m`, `%d`). -/
def fmt2 (n : Nat) : String := String.mk [digitChar (n / 10 % 10), digitChar (n % 10)]

/-- Four-digit zero-padded decimal rendering (`%Y`). -/
def fmt4 (n : Nat) : String :=
  String.mk [digitChar (n / 1000 % 10), digitChar (n / 100 % 10), digitChar (n / 10 % 10), digitChar (n % 10)]

/-- File name stored at a destination. -/
def destName : Dest → String
  | Dest.trash n => n
  | Dest.confirmTrash n => n
  | Dest.library _ _ _ n => n
  | Dest.quarantine n => n

/-- Directory of a destination (the `dest.parent` of the returned path). -/
def destDirOf (cfg : Config) : Dest → String
  | Dest.trash _ => cfg.quarantine ++ "/trash"
  | Dest.confirmTrash _ => cfg.quarantine ++ "/confirm/trash"
  | Dest.library y m d _ => cfg.library ++ "/" ++ fmt4 y ++ "/" ++ fmt2 m ++ "/" ++ fmt2 d
  | Dest.quarantine _ => cfg.quarantine

/-- Full path of a destination. -/
def destPath (cfg : Config) (d : Dest) : String := destDirOf cfg d ++ "/" ++ destName d

/-- The filename-embedded date segment: the second underscore segment when it
is present and fully numeric (`len(parts) >= 2 and parts[1].isdigit()`). -/
def filenameDateSeg (f : StagedFile) : Option (List Char) :=
  match secondSeg f.name with
  | some s => if pyIsDigit s = true then some s else none
  | none => none

/-- Mtime fallback of `_library_destination_for`: unreadable mtime or an mtime
strictly newer than the trust cutoff quarantines the file, otherwise the file
is placed under the UTC date of the mtime. -/
def mtimeFallback (cfg : Config) (f : StagedFile) : Dest :=
  match f.mtime with
  | none => Dest.quarantine f.name
  | some t =>
    if cfg.cutoff < t then Dest.quarantine f.name
    else
      match civilFromSeconds t with
      | (y, m, d) => Dest.library y m d f.name

/-- The function `Importer._library_destination_for`: filename date first, mtime fallback
otherwise; a numeric second segment rejected by `strptime` quarantines. -/
def libraryDestinationFor (cfg : Config) (f : StagedFile) : Dest :=
  match filenameDateSeg f with
  | some s =>
    match parseYmd s with
    | some (y, m, d) => Dest.library y m d f.name
    | none => Dest.quarantine f.name
  | none => mtimeFallback cfg f

/-- Does the file have extension `.jpg` or `.jpeg`, case-insensitively
(`path.suffix.lower() in {".jpg", ".jpeg"}`). -/
def isJpeg (f : StagedFile) : Bool :=
  let s := (pySuffix f.name).map Char.toLower
  decide (s = ".jpg".data ∨ s = ".jpeg".data)

/-- The RAW companion name `<stem>.dng` of a file. -/
def dngName (f : StagedFile) : List Char := pyStem f.name ++ ".dng".data

/-- Case-insensitive name equality, as glob `<stem>.dng` with
`case_sensitive=False` on names without glob metacharacters. -/
def lowerEq (n : String) (pat : List Char) : Bool :=
  decide (n.data.map Char.toLower = pat.map Char.toLower)

/-- Case-insensitive prefix test, as glob `<stem>*` with `case_sensitive=False`
on names without glob metacharacters. -/
def startsLower (n : String) (pre : List Char) : Bool :=
  (pre.map Char.toLower).isPrefixOf (n.data.map Char.toLower)

/-- Names of the regular files currently in the staging directory. -/
def stagingNames (fs : FS) : List String := fs.staging.map StagedFile.name

/-- Files of a directory, empty when the directory does not exist (a glob over
a missing directory yields nothing). -/
def dirList (fs : FS) (dir : String) : List String :=
  (fs.entries.filter (fun e => decide (e.1 = dir))).map Prod.snd

/-- Number of staging-batch matches of the glob `<stem>.dng` (line 96). -/
def stagingRawCount (fs : FS) (f : StagedFile) : Nat :=
  (fs.staging.filter (fun g => lowerEq g.name (dngName f))).length

/-- Directory of the computed library destination of a file (`dest.parent`). -/
def libRawDir (cfg : Config) (f : StagedFile) : String :=
  destDirOf cfg (libraryDestinationFor cfg f)

/-- Number of matches of the glob `<stem>.dng` in the computed library
destination directory (line 104). -/
def libRawCount (cfg : Config) (fs : FS) (f : StagedFile) : Nat :=
  ((dirList fs (libRawDir cfg f)).filter (fun n => lowerEq n (dngName f))).length

/-- The `ValueError` message raised on multiple RAW matches.  The second raise
site of the source appends the list of glob matches to the message; that
rendering detail is not modelled. -/
def rawErr (f : StagedFile) : String :=
  "How does " ++ f.name ++ " have multiple RAW files?"

/-- RAW-preference rule (lines 94-109): for `.jpg`/`.jpeg` files, count RAW
companions in the staging batch, then in the library destination directory;
one match trashes the JPEG, more than one raises, zero falls through. -/
def rawStep (cfg : Config) (fs : FS) (f : StagedFile) : Option (Except String Dest) :=
  if isJpeg f = true then
    if stagingRawCount fs f = 1 then some (Except.ok (Dest.trash f.name))
    else if 1 < stagingRawCount fs f then some (Except.error (rawErr f))
    else if libRawCount cfg fs f = 1 then some (Except.ok (Dest.trash f.name))
    else if 1 < libRawCount cfg fs f then some (Except.error (rawErr f))
    else none
  else none

/-- Numbered-copy rule (lines 111-124): when the stem's `rpartition("~")` tail
is fully numeric, an original with the same suffix in the staging batch
trashes the copy; otherwise the library destination directory is globbed for
names starting with the original stem: one match trashes, several raise, zero
falls through. -/
def tildeGlob (cfg : Config) (fs : FS) (f : StagedFile) : List String :=
  (dirList fs (libRawDir cfg f)).filter
    (fun n => startsLower n (rpartTilde (pyStem f.name)).1)

/-- Numbered-copy rule, decision part (lines 113-124). -/
def tildeStep (cfg : Config) (fs : FS) (f : StagedFile) : Option (Except String Dest) :=
  if (rpartTilde (pyStem f.name)).2 ≠ [] ∧
      (rpartTilde (pyStem f.name)).2.all isDigitChar = true then
    if String.mk ((rpartTilde (pyStem f.name)).1 ++ pySuffix f.name) ∈ stagingNames fs then
      some (Except.ok (Dest.trash f.name))
    else if (tildeGlob cfg fs f).length = 1 then some (Except.ok (Dest.trash f.name))
    else if 1 < (tildeGlob cfg fs f).length then some (Except.error (rawErr f))
    else none
  else none

/-- The function `Importer._decide`: dotfile rule, RAW-preference rule, numbered-copy rule,
then date-based placement. -/
def decideCore (cfg : Config) (fs : FS) (f : StagedFile) : Except String Dest :=
  if isDotName f.name = true then
    if dropDots f.name = "DS_Store" then Except.ok (Dest.trash f.name)
    else Except.ok (Dest.confirmTrash (dropDots f.name))
  else
    match rawStep cfg fs f with
    | some r => r
    | none =>
      match tildeStep cfg fs f with
      | some r => r
      | none => Except.ok (libraryDestinationFor cfg f)

/-- Variant of `decideCore` with the RAW-preference rule removed, used to state
that the rule is never applied to files of other extensions. -/
def decideCoreNoRaw (cfg : Config) (fs : FS) (f : StagedFile) : Except String Dest :=
  if isDotName f.name = true then
    if dropDots f.name = "DS_Store" then Except.ok (Dest.trash f.name)
    else Except.ok (Dest.confirmTrash (dropDots f.name))
  else
    match tildeStep cfg fs f with
    | some r => r
    | none => Except.ok (libraryDestinationFor cfg f)

/-- Add a directory if missing (`mkdir(parents=True, exist_ok=True)`;
intermediate parents are not tracked). -/
def insertDir (d : String) (ds : List String) : List String :=
  if d ∈ ds then ds else d :: ds

/-- The decision together with its directory side effects: a successful decision ensures
the destination's parent directory exists (the `trash` and `confirm/trash`
cached properties on first use, `dest.parent.mkdir` on fallthrough); an
integrity fault creates nothing. -/
def decideSt (cfg : Config) (fs : FS) (f : StagedFile) : Except String Dest × FS :=
  match decideCore cfg fs f with
  | Except.error e => (Except.error e, fs)
  | Except.ok d => (Except.ok d, FS.mk fs.staging fs.entries (insertDir (destDirOf cfg d) fs.dirs))

/-- Effect of `Path.rename` on the modelled filesystem: the file leaves the
staging directory and appears in the destination directory. -/
def applyMove (cfg : Config) (fs : FS) (f : StagedFile) (d : Dest) : FS :=
  FS.mk (fs.staging.filter (fun g => decide (g.name ≠ f.name)))
    ((destDirOf cfg d, destName d) :: fs.entries) fs.dirs

/-- The ingest loop over a snapshot of the staging listing: decide and move
each file in order, journaling `(source.name, destination)`; a raised
integrity fault aborts the remaining batch, reporting the journal so far. -/
def ingestGo (cfg : Config) (dry : Bool) :
    FS → List StagedFile → List (String × Dest) →
    Except (String × List (String × Dest)) (List (String × Dest)) × FS
  | fs, [], acc => (Except.ok acc.reverse, fs)
  | fs, f :: rest, acc =>
    match decideSt cfg fs f with
    | (Except.error e, fs1) => (Except.error (e, acc.reverse), fs1)
    | (Except.ok d, fs1) =>
      let fs2 := if dry then fs1 else applyMove cfg fs1 f d
      ingestGo cfg dry fs2 rest ((f.name, d) :: acc)

/-- The method `Importer.ingest` over a staging directory: `dry` selects the no-op move
function of `Importer.dry_run`. -/
def runIngest (cfg : Config) (dry : Bool) (fs : FS) :
    Except (String × List (String × Dest)) (List (String × Dest)) × FS :=
  ingestGo cfg dry fs fs.staging []

/-- The journal visible after a run: the full manifest on success, the partial
journal accumulated before the fault otherwise. -/
def manifestOf : Except (String × List (String × Dest)) (List (String × Dest)) →
    List (String × Dest)
  | Except.ok m => m
  | Except.error (_, p) => p

/-- Is a destination the trash directory. -/
def isTrashD : Dest → Bool
  | Dest.trash _ => true
  | _ => false

/-- Is a destination the confirm-trash directory. -/
def isConfirmD : Dest → Bool
  | Dest.confirmTrash _ => true
  | _ => false

/-- Does some journal record's destination satisfy the given test. -/
def hasRec (P : Dest → Bool) (l : List (String × Dest)) : Bool := l.any (fun r => P r.2)

/-- Does the numbered-copy rule's guard hold: the stem's `rpartition("~")`
tail is nonempty and fully numeric (an all-digits stem with no tilde also
satisfies it, since `rpartition` then returns the whole stem as the tail). -/
def tildeApplies (f : StagedFile) : Bool :=
  decide ((rpartTilde (pyStem f.name)).2 ≠ []) &&
    (rpartTilde (pyStem f.name)).2.all isDigitChar

/-- A staged file whose decision consults no directory listing: a dotfile, or
a file that is neither a `.jpg`/`.jpeg` nor subject to the numbered-copy rule. -/
def globFree (f : StagedFile) : Bool :=
  isDotName f.name || (!(isJpeg f) && !(tildeApplies f))

/-- Concrete configuration used by the evaluation witnesses. -/
def cfgA : Config := Config.mk "lib" "quar" 0

/-- An empty filesystem state, used by witnesses and counterexamples. -/
def fsE : FS := FS.mk [] [] []

/-- Witness input: a dated JPEG with no companions. -/
def fileC1 : StagedFile := StagedFile.mk "PXL_20240101_123.JPG" none

/-- Witness state for the dated-file claim. -/
def fsC1 : FS := FS.mk [fileC1] [] []

/-- Witness input: a JPEG whose RAW companion is in the staging batch. -/
def fileC2 : StagedFile := StagedFile.mk "A_20240101_1.JPG" none

/-- Witness state for the RAW-preference claim. -/
def fsC2 : FS := FS.mk [fileC2, StagedFile.mk "A_20240101_1.dng" none] [] []

/-- Witness input: a numbered copy whose original is in the staging batch. -/
def fileC3 : StagedFile := StagedFile.mk "B_20240101_7~2.JPG" none

/-- Witness state for the numbered-copy claim. -/
def fsC3 : FS := FS.mk [StagedFile.mk "B_20240101_7.JPG" none, fileC3] [] []

/-- The dotfile claim of the spec stated verbatim: the test compares the
remainder after the single leading dot with `DS_Store`, and strips that single
leading dot for the confirm-trash name. -/
def c4ClaimAt (cfg : Config) (fs : FS) (f : StagedFile) : Prop :=
  isDotName f.name = true →
    ((String.mk f.name.data.tail = "DS_Store" →
       decideCore cfg fs f = Except.ok (Dest.trash f.name)) ∧
     (String.mk f.name.data.tail ≠ "DS_Store" →
       decideCore cfg fs f = Except.ok (Dest.confirmTrash (String.mk f.name.data.tail))))

/-- Counterexample input: a dotfile with two leading dots. -/
def fileC4x : StagedFile := StagedFile.mk "..DS_Store" none

/-- Witness input: the plain `.DS_Store` dotfile. -/
def fileC4a : StagedFile := StagedFile.mk ".DS_Store" none

/-- Witness input: an ordinary dotfile. -/
def fileC4b : StagedFile := StagedFile.mk ".hidden.jpg" none

/-- Witness configuration with a trust cutoff newer than the witness mtime. -/
def cfgC5 : Config := Config.mk "lib" "quar" 1704200000

/-- Witness input: a file with no filename date and a trusted mtime
(2024-01-02 12:00 UTC). -/
def fileC5 : StagedFile := StagedFile.mk "DSC_pic.RAW" (some 1704196800)

/-- Witness state for the mtime-fallback claim. -/
def fsC5 : FS := FS.mk [fileC5] [] []

/-- The invalid-date claim of the spec stated verbatim: a fully numeric second
segment that is not a valid strict `YYYYMMDD` date is quarantined. -/
def c6ClaimAt (cfg : Config) (fs : FS) (f : StagedFile) (s : List Char) : Prop :=
  filenameDateSeg f = some s → eightDigitDate s = none →
    decideCore cfg fs f = Except.ok (Dest.quarantine f.name)

/-- Counterexample input: a six-digit second segment, leniently parsed by
`strptime` as 2024-01-01. -/
def fileC6x : StagedFile := StagedFile.mk "PXL_202411_1.jpg" none

/-- Witness input: the month-13 file of the repository's tests. -/
def fileC6w : StagedFile := StagedFile.mk "PXL_20231301_151542487.JPG" none

/-- Witness input: a JPEG with two case-variant RAW companions in the batch. -/
def fileC7 : StagedFile := StagedFile.mk "C_20240101_1.jpg" none

/-- Witness state for the abort-on-fault claim: the JPEG is processed first
and finds two RAW matches. -/
def fsC7 : FS :=
  FS.mk [fileC7, StagedFile.mk "C_20240101_1.dng" none, StagedFile.mk "C_20240101_1.DNG" none]
    [] []

/-- Counterexample state for the dry-run claim: a DNG and its JPEG in staging
while a case-variant DNG already sits in the library destination directory.
The real run moves the DNG first, so the JPEG then finds two RAW matches in
the library and the run aborts; the dry run still sees the DNG in staging and
completes. -/
def fsC8x : FS :=
  FS.mk [StagedFile.mk "PXL_20240101_1.dng" none, StagedFile.mk "PXL_20240101_1.jpg" none]
    [("lib/2024/01/01", "PXL_20240101_1.DNG")] ["lib/2024/01/01"]

/-- Witness state for the amended dry-run claim: no staged file consults any
directory listing. -/
def fsC8w : FS :=
  FS.mk [StagedFile.mk "D_20240101_2.MP4" none, StagedFile.mk ".DS_Store" none] [] []

/-- Witness input: a JPEG with no usable date (no filename date, unreadable
mtime), whose computed library destination is therefore the quarantine root. -/
def fileC10 : StagedFile := StagedFile.mk "IMG_pic.jpg" none

/-- Witness state: a RAW companion of the witness file already sits directly
in the quarantine root. -/
def fsC10 : FS := FS.mk [fileC10] [("quar", "IMG_pic.dng")] ["quar"]

theorem char_eq_of_toNat (c : Char) (n : Nat) (h : c.toNat = n) : c = Char.ofNat n := by
  rw [← h, Char.ofNat_toNat]

theorem digit_char_cases (c : Char) (h : isDigitChar c = true) :
    c = '0' ∨ c = '1' ∨ c = '2' ∨ c = '3' ∨ c = '4' ∨
      c = '5' ∨ c = '6' ∨ c = '7' ∨ c = '8' ∨ c = '9' := by
  have h' : 48 ≤ c.toNat ∧ c.toNat ≤ 57 := by simpa [isDigitChar] using h
  have hd : c.toNat = 48 ∨ c.toNat = 49 ∨ c.toNat = 50 ∨ c.toNat = 51 ∨ c.toNat = 52 ∨
      c.toNat = 53 ∨ c.toNat = 54 ∨ c.toNat = 55 ∨ c.toNat = 56 ∨ c.toNat = 57 := by omega
  rcases hd with h0|h0|h0|h0|h0|h0|h0|h0|h0|h0 <;> rw [char_eq_of_toNat c _ h0] <;> decide

theorem monthTwo_strict (a b : Char) (r : List Char)
    (ha : isDigitChar a = true) (hb : isDigitChar b = true)
    (h1 : 1 ≤ dval a * 10 + dval b) (h2 : dval a * 10 + dval b ≤ 12) :
    monthTwo (a :: b :: r) = some (dval a * 10 + dval b) := by
  have e : monthTwo (a :: b :: r) = monthTwo [a, b] := rfl
  rw [e]
  rcases digit_char_cases a ha with rfl|rfl|rfl|rfl|rfl|rfl|rfl|rfl|rfl|rfl <;>
    rcases digit_char_cases b hb with rfl|rfl|rfl|rfl|rfl|rfl|rfl|rfl|rfl|rfl <;>
    revert h1 h2 <;> decide

theorem dayTwo_strict (a b : Char) (r : List Char)
    (ha : isDigitChar a = true) (hb : isDigitChar b = true)
    (h1 : 1 ≤ dval a * 10 + dval b) (h2 : dval a * 10 + dval b ≤ 31) :
    dayTwo (a :: b :: r) = some (dval a * 10 + dval b) := by
  have e : dayTwo (a :: b :: r) = dayTwo [a, b] := rfl
  rw [e]
  rcases digit_char_cases a ha with rfl|rfl|rfl|rfl|rfl|rfl|rfl|rfl|rfl|rfl <;>
    rcases digit_char_cases b hb with rfl|rfl|rfl|rfl|rfl|rfl|rfl|rfl|rfl|rfl <;>
    revert h1 h2 <;> decide

theorem daysInMonth_le_31 (y m : Nat) : daysInMonth y m ≤ 31 := by
  unfold daysInMonth
  split
  · split <;> omega
  · split <;> omega

theorem mdMatch_strict (a b c d : Char)
    (ha : isDigitChar a = true) (hb : isDigitChar b = true)
    (hc : isDigitChar c = true) (hd : isDigitChar d = true)
    (hm1 : 1 ≤ dval a * 10 + dval b) (hm2 : dval a * 10 + dval b ≤ 12)
    (hd1 : 1 ≤ dval c * 10 + dval d) (hd2 : dval c * 10 + dval d ≤ 31) :
    mdMatch [a, b, c, d] = some (dval a * 10 + dval b, dval c * 10 + dval d, 4) := by
  have hmt := monthTwo_strict a b [c, d] ha hb hm1 hm2
  have hdt := dayTwo_strict c d [] hc hd hd1 hd2
  unfold mdMatch
  rw [hmt]
  have hdrop : ([a, b, c, d].drop 2) = [c, d] := rfl
  rw [hdrop]
  unfold dayMatch
  rw [hdt]

theorem eightDigit_parseYmd (s : List Char) (y m d : Nat)
    (h : eightDigitDate s = some (y, m, d)) : parseYmd s = some (y, m, d) := by
  rcases s with _ | ⟨c1, _ | ⟨c2, _ | ⟨c3, _ | ⟨c4, _ | ⟨c5, _ | ⟨c6, _ | ⟨c7, _ | ⟨c8, _ | ⟨c9, t⟩⟩⟩⟩⟩⟩⟩⟩⟩ <;>
    simp only [eightDigitDate] at h
  pick_goal 9
  · split at h
    · split at h
      · rename_i hdig hval
        obtain ⟨hy, hm1, hm2, hdd1, hdd2⟩ := hval
        injection h with h
        injection h with hy2 h
        injection h with hm3 hd3
        subst hy2; subst hm3; subst hd3
        obtain ⟨⟨ha, hb, hc, hd⟩, he, hf, hg, hh⟩ := hdig
        simp only [parseYmd]
        rw [if_pos ⟨ha, hb, hc, hd⟩]
        rw [mdMatch_strict c5 c6 c7 c8 he hf hg hh hm1 hm2 hdd1 (by
          have := daysInMonth_le_31 (((dval c1 * 10 + dval c2) * 10 + dval c3) * 10 + dval c4)
            (dval c5 * 10 + dval c6)
          omega)]
        simp [hy, hdd2]
      · exact absurd h (by simp)
    · exact absurd h (by simp)
  all_goals exact absurd h (by simp)

theorem rawStep_cases (cfg : Config) (fs : FS) (f : StagedFile) (r : Except String Dest)
    (h : rawStep cfg fs f = some r) :
    r = Except.ok (Dest.trash f.name) ∨ r = Except.error (rawErr f) := by
  unfold rawStep at h
  split at h
  · split at h
    · left; exact (Option.some.inj h).symm
    · split at h
      · right; exact (Option.some.inj h).symm
      · split at h
        · left; exact (Option.some.inj h).symm
        · split at h
          · right; exact (Option.some.inj h).symm
          · exact absurd h (by simp)
  · exact absurd h (by simp)

theorem tildeStep_cases (cfg : Config) (fs : FS) (f : StagedFile) (r : Except String Dest)
    (h : tildeStep cfg fs f = some r) :
    r = Except.ok (Dest.trash f.name) ∨ r = Except.error (rawErr f) := by
  unfold tildeStep at h
  split at h
  · split at h
    · left; exact (Option.some.inj h).symm
    · split at h
      · left; exact (Option.some.inj h).symm
      · split at h
        · right; exact (Option.some.inj h).symm
        · exact absurd h (by simp)
  · exact absurd h (by simp)

theorem decide_ok_fallthrough (cfg : Config) (fs : FS) (f : StagedFile) (dest : Dest)
    (hdot : isDotName f.name = false)
    (hok : decideCore cfg fs f = Except.ok dest)
    (hnt : ∀ n, dest ≠ Dest.trash n) :
    dest = libraryDestinationFor cfg f := by
  unfold decideCore at hok
  rw [hdot] at hok
  simp only [Bool.false_eq_true, if_false] at hok
  rcases hr : rawStep cfg fs f with _ | r
  · rw [hr] at hok
    rcases ht : tildeStep cfg fs f with _ | r
    · rw [ht] at hok
      exact (Except.ok.inj hok).symm
    · rw [ht] at hok
      rcases tildeStep_cases cfg fs f r ht with rfl | rfl
      · exact absurd (Except.ok.inj hok).symm (hnt f.name)
      · exact absurd hok (by simp)
  · rw [hr] at hok
    rcases rawStep_cases cfg fs f r hr with rfl | rfl
    · exact absurd (Except.ok.inj hok).symm (hnt f.name)
    · exact absurd hok (by simp)

/-- Claim C1: a non-dotfile staged file that is not trashed as a duplicate and
whose second underscore segment is a fully numeric valid `YYYYMMDD` date is
placed at `<library>/<YYYY>/<MM>/<DD>/<name>`. -/
theorem c1_dated_to_library (cfg : Config) (fs : FS) (f : StagedFile)
    (y m d : Nat) (s : List Char) (dest : Dest)
    (hdot : isDotName f.name = false)
    (hseg : filenameDateSeg f = some s)
    (hdate : eightDigitDate s = some (y, m, d))
    (hok : decideCore cfg fs f = Except.ok dest)
    (hnt : ∀ n, dest ≠ Dest.trash n) :
    dest = Dest.library y m d f.name := by
  have hfall := decide_ok_fallthrough cfg fs f dest hdot hok hnt
  have hp := eightDigit_parseYmd s y m d hdate
  rw [hfall]
  simp only [libraryDestinationFor, hseg, hp]

/-- Witness for C1: `PXL_20240101_123.JPG` goes to `library/2024/01/01`. -/
theorem c1_witness :
    decideCore cfgA fsC1 fileC1 = Except.ok (Dest.library 2024 1 1 "PXL_20240101_123.JPG") ∧
      Dest.library 2024 1 1 "PXL_20240101_123.JPG" = Dest.library 2024 1 1 fileC1.name := by
  have hok : decideCore cfgA fsC1 fileC1 =
      Except.ok (Dest.library 2024 1 1 "PXL_20240101_123.JPG") := by decide
  exact ⟨hok, c1_dated_to_library cfgA fsC1 fileC1 2024 1 1 "20240101".data
    (Dest.library 2024 1 1 "PXL_20240101_123.JPG") (by decide) (by decide) (by decide) hok
    (fun n hh => Dest.noConfusion hh)⟩

/-- Behaviour of the RAW-preference rule inside the decider, in all four
count situations, plus its inapplicability to other extensions. -/
theorem rawRuleSpec (cfg : Config) (fs : FS) (f : StagedFile)
    (hdot : isDotName f.name = false) :
    (isJpeg f = true → stagingRawCount fs f = 1 →
      decideCore cfg fs f = Except.ok (Dest.trash f.name)) ∧
    (isJpeg f = true → 1 < stagingRawCount fs f →
      decideCore cfg fs f = Except.error (rawErr f)) ∧
    (isJpeg f = true → stagingRawCount fs f = 0 → libRawCount cfg fs f = 1 →
      decideCore cfg fs f = Except.ok (Dest.trash f.name)) ∧
    (isJpeg f = true → stagingRawCount fs f = 0 → 1 < libRawCount cfg fs f →
      decideCore cfg fs f = Except.error (rawErr f)) ∧
    (isJpeg f = false → decideCore cfg fs f = decideCoreNoRaw cfg fs f) := by
  refine ⟨?_, ?_, ?_, ?_, ?_⟩
  · intro hj hk
    have hr : rawStep cfg fs f = some (Except.ok (Dest.trash f.name)) := by
      unfold rawStep; rw [if_pos hj, if_pos hk]
    unfold decideCore
    rw [hdot]
    simp only [Bool.false_eq_true, if_false]
    rw [hr]
  · intro hj hk
    have hr : rawStep cfg fs f = some (Except.error (rawErr f)) := by
      unfold rawStep; rw [if_pos hj, if_neg (by omega), if_pos hk]
    unfold decideCore
    rw [hdot]
    simp only [Bool.false_eq_true, if_false]
    rw [hr]
  · intro hj h0 h2
    have hr : rawStep cfg fs f = some (Except.ok (Dest.trash f.name)) := by
      unfold rawStep; rw [if_pos hj, if_neg (by omega), if_neg (by omega), if_pos h2]
    unfold decideCore
    rw [hdot]
    simp only [Bool.false_eq_true, if_false]
    rw [hr]
  · intro hj h0 h2
    have hr : rawStep cfg fs f = some (Except.error (rawErr f)) := by
      unfold rawStep
      rw [if_pos hj, if_neg (by omega), if_neg (by omega), if_neg (by omega), if_pos h2]
    unfold decideCore
    rw [hdot]
    simp only [Bool.false_eq_true, if_false]
    rw [hr]
  · intro hj
    have hr : rawStep cfg fs f = none := by
      unfold rawStep; rw [if_neg (by simp [hj])]
    unfold decideCore decideCoreNoRaw
    rw [hdot]
    simp only [Bool.false_eq_true, if_false]
    rw [hr]

/-- Claim C2: for non-dotfile `.jpg`/`.jpeg` files the decider trashes on
exactly one RAW companion in the staging batch; raises on more than one there;
otherwise trashes on exactly one RAW companion in the library destination
directory and raises on more than one; and the rule is never applied to files
of any other extension. -/
theorem c2_raw_rule (cfg : Config) (fs : FS) (f : StagedFile)
    (hdot : isDotName f.name = false) :
    (isJpeg f = true → stagingRawCount fs f = 1 →
      decideCore cfg fs f = Except.ok (Dest.trash f.name)) ∧
    (isJpeg f = true → 1 < stagingRawCount fs f →
      decideCore cfg fs f = Except.error (rawErr f)) ∧
    (isJpeg f = true → stagingRawCount fs f = 0 → libRawCount cfg fs f = 1 →
      decideCore cfg fs f = Except.ok (Dest.trash f.name)) ∧
    (isJpeg f = true → stagingRawCount fs f = 0 → 1 < libRawCount cfg fs f →
      decideCore cfg fs f = Except.error (rawErr f)) ∧
    (isJpeg f = false → decideCore cfg fs f = decideCoreNoRaw cfg fs f) :=
  rawRuleSpec cfg fs f hdot

/-- Witness for C2: `A_20240101_1.JPG` with `A_20240101_1.dng` in the batch is
trashed. -/
theorem c2_witness :
    isDotName fileC2.name = false ∧ isJpeg fileC2 = true ∧ stagingRawCount fsC2 fileC2 = 1 ∧
      decideCore cfgA fsC2 fileC2 = Except.ok (Dest.trash fileC2.name) := by
  refine ⟨by decide, by decide, by decide, ?_⟩
  exact (c2_raw_rule cfgA fsC2 fileC2 (by decide)).1 (by decide) (by decide)

/-- Counterexample for C4: the code strips every leading dot, so `..DS_Store`
is trashed under its full name, while the claim (remainder after the single
leading dot, here `.DS_Store`) calls for confirm-trash under `.DS_Store`. -/
theorem c4_counterexample : ¬ c4ClaimAt cfgA fsE fileC4x := by
  unfold c4ClaimAt
  decide

/-- Claim C4 (amended): for a dotfile, if the remainder after stripping all
leading dots equals `DS_Store` the file is trashed keeping its full name, and
otherwise it goes to confirm-trash under the name with all leading dots
stripped; the rule precedes every duplicate and date rule. -/
theorem c4_dotfile_rule (cfg : Config) (fs : FS) (f : StagedFile)
    (h : isDotName f.name = true) :
    (dropDots f.name = "DS_Store" → decideCore cfg fs f = Except.ok (Dest.trash f.name)) ∧
    (dropDots f.name ≠ "DS_Store" →
      decideCore cfg fs f = Except.ok (Dest.confirmTrash (dropDots f.name))) := by
  constructor
  · intro he
    unfold decideCore
    rw [if_pos h, if_pos he]
  · intro he
    unfold decideCore
    rw [if_pos h, if_neg he]

/-- Witness for C4: `.DS_Store` is trashed, `.hidden.jpg` goes to
confirm-trash as `hidden.jpg`. -/
theorem c4_witness :
    isDotName fileC4a.name = true ∧ isDotName fileC4b.name = true ∧
      decideCore cfgA fsE fileC4a = Except.ok (Dest.trash ".DS_Store") ∧
      decideCore cfgA fsE fileC4b = Except.ok (Dest.confirmTrash "hidden.jpg") := by
  refine ⟨by decide, by decide, ?_, ?_⟩
  · exact (c4_dotfile_rule cfgA fsE fileC4a (by decide)).1 (by decide)
  · exact (c4_dotfile_rule cfgA fsE fileC4b (by decide)).2 (by decide)

/-- Claim C5: a non-dotfile, non-duplicate file with no filename date is
quarantined when its mtime is unreadable or strictly newer than the trust
cutoff, and otherwise placed in the library under the UTC date of the mtime. -/
theorem c5_mtime_rule (cfg : Config) (fs : FS) (f : StagedFile) (dest : Dest)
    (hdot : isDotName f.name = false)
    (hnodate : filenameDateSeg f = none)
    (hok : decideCore cfg fs f = Except.ok dest)
    (hnt : ∀ n, dest ≠ Dest.trash n) :
    (f.mtime = none → dest = Dest.quarantine f.name) ∧
    (∀ t, f.mtime = some t → cfg.cutoff < t → dest = Dest.quarantine f.name) ∧
    (∀ t, f.mtime = some t → t ≤ cfg.cutoff →
      dest = Dest.library (civilFromSeconds t).1 (civilFromSeconds t).2.1
        (civilFromSeconds t).2.2 f.name) := by
  have hfall := decide_ok_fallthrough cfg fs f dest hdot hok hnt
  rw [hfall]
  refine ⟨?_, ?_, ?_⟩
  · intro hm
    simp only [libraryDestinationFor, hnodate, mtimeFallback, hm]
  · intro t hm hcut
    simp only [libraryDestinationFor, hnodate, mtimeFallback, hm]
    rw [if_pos hcut]
  · intro t hm hcut
    simp only [libraryDestinationFor, hnodate, mtimeFallback, hm]
    rw [if_neg (by omega)]

/-- Witness for C5: a file with mtime 2024-01-02 12:00 UTC, older than the
cutoff, is placed at `library/2024/01/02`. -/
theorem c5_witness :
    decideCore cfgC5 fsC5 fileC5 = Except.ok (Dest.library 2024 1 2 "DSC_pic.RAW") ∧
      Dest.library 2024 1 2 "DSC_pic.RAW" =
        Dest.library (civilFromSeconds 1704196800).1 (civilFromSeconds 1704196800).2.1
          (civilFromSeconds 1704196800).2.2 fileC5.name := by
  have hok : decideCore cfgC5 fsC5 fileC5 =
      Except.ok (Dest.library 2024 1 2 "DSC_pic.RAW") := by decide
  refine ⟨hok, ?_⟩
  exact (c5_mtime_rule cfgC5 fsC5 fileC5 (Dest.library 2024 1 2 "DSC_pic.RAW") (by decide)
    (by decide) hok (fun n hh => Dest.noConfusion hh)).2.2 1704196800 rfl (by decide)

/-- Counterexample for C6: `PXL_202411_1.jpg` has a fully numeric second
segment that is not a valid `YYYYMMDD` date, yet the lenient `strptime` parse
reads it as 2024-01-01 and the file goes to the library, not to quarantine. -/
theorem c6_counterexample : ¬ c6ClaimAt cfgA fsE fileC6x "202411".data := by
  unfold c6ClaimAt
  decide

/-- Claim C6 (amended): date resolution never raises: with a fully numeric
second segment the file is quarantined exactly when the lenient `%Y%m%d`
parse rejects the segment, and placed at the parsed date when it accepts
(so six- or seven-digit segments such as `202411` can reach the library). -/
theorem c6_date_resolution (cfg : Config) (f : StagedFile) (s : List Char)
    (hseg : filenameDateSeg f = some s) :
    (parseYmd s = none → libraryDestinationFor cfg f = Dest.quarantine f.name) ∧
    (∀ y m d, parseYmd s = some (y, m, d) →
      libraryDestinationFor cfg f = Dest.library y m d f.name) := by
  constructor
  · intro hp
    simp only [libraryDestinationFor, hseg, hp]
  · intro y m d hp
    simp only [libraryDestinationFor, hseg, hp]

/-- Witness for C6: the month-13 name `PXL_20231301_151542487.JPG` is
quarantined. -/
theorem c6_witness :
    filenameDateSeg fileC6w = some "20231301".data ∧ parseYmd "20231301".data = none ∧
      libraryDestinationFor cfgA fileC6w = Dest.quarantine fileC6w.name := by
  refine ⟨by decide, by decide, ?_⟩
  exact (c6_date_resolution cfgA fileC6w "20231301".data (by decide)).1 (by decide)

theorem rpartTilde_append (a t : List Char) (ht : t ≠ []) (hdig : t.all isDigitChar = true) :
    rpartTilde (a ++ '~' :: t) = (a, t) := by
  have hnt : ∀ c ∈ t.reverse, (fun c => decide (c ≠ '~')) c = true := by
    intro c hc
    have hdc := List.all_eq_true.mp hdig c (List.mem_reverse.mp hc)
    simp only [decide_eq_true_eq]
    intro hcc
    rw [hcc] at hdc
    exact absurd hdc (by decide)
  have hrev : (a ++ '~' :: t).reverse = t.reverse ++ '~' :: a.reverse := by
    rw [List.reverse_append, List.reverse_cons, List.append_assoc]
    rfl
  have htw : ((a ++ '~' :: t).reverse.takeWhile (fun c => decide (c ≠ '~'))) = t.reverse := by
    rw [hrev, List.takeWhile_append_of_pos hnt]
    simp [List.takeWhile]
  have hlen : (a ++ '~' :: t).length = a.length + 1 + t.length := by
    simp [List.length_append]
    omega
  unfold rpartTilde
  rw [htw, List.length_reverse, hlen]
  rw [if_neg (by omega)]
  have hidx : a.length + 1 + t.length - 1 - t.length = a.length := by omega
  rw [hidx, List.reverse_reverse, List.take_left' rfl]

theorem tildeStep_eq (cfg : Config) (fs : FS) (f : StagedFile) (head tl : List Char)
    (hrp : rpartTilde (pyStem f.name) = (head, tl))
    (htl : tl ≠ []) (hdig : tl.all isDigitChar = true) :
    tildeStep cfg fs f =
      (if String.mk (head ++ pySuffix f.name) ∈ stagingNames fs then
        some (Except.ok (Dest.trash f.name))
      else if (tildeGlob cfg fs f).length = 1 then some (Except.ok (Dest.trash f.name))
      else if 1 < (tildeGlob cfg fs f).length then some (Except.error (rawErr f))
      else none) := by
  unfold tildeStep
  rw [hrp]
  exact if_pos ⟨htl, hdig⟩

theorem decideCore_tilde_branch (cfg : Config) (fs : FS) (f : StagedFile)
    (hdot : isDotName f.name = false)
    (hraw : rawStep cfg fs f = none) :
    decideCore cfg fs f =
      (match tildeStep cfg fs f with
       | some r => r
       | none => Except.ok (libraryDestinationFor cfg f)) := by
  unfold decideCore
  rw [hdot]
  simp only [Bool.false_eq_true, if_false]
  rw [hraw]

/-- Behaviour of the numbered-copy rule inside the decider, in every
situation its guard allows. -/
theorem numberedCopySpec (cfg : Config) (fs : FS) (f : StagedFile) (head tl : List Char)
    (hdot : isDotName f.name = false)
    (hraw : rawStep cfg fs f = none)
    (hstem : pyStem f.name = head ++ '~' :: tl)
    (htl : tl ≠ []) (hdig : tl.all isDigitChar = true) :
    (String.mk (head ++ pySuffix f.name) ∈ stagingNames fs →
      decideCore cfg fs f = Except.ok (Dest.trash f.name)) ∧
    (String.mk (head ++ pySuffix f.name) ∉ stagingNames fs →
      ((tildeGlob cfg fs f).length = 1 →
        decideCore cfg fs f = Except.ok (Dest.trash f.name)) ∧
      (1 < (tildeGlob cfg fs f).length →
        decideCore cfg fs f = Except.error (rawErr f)) ∧
      ((tildeGlob cfg fs f).length = 0 →
        decideCore cfg fs f = Except.ok (libraryDestinationFor cfg f))) := by
  have hrp : rpartTilde (pyStem f.name) = (head, tl) := by
    rw [hstem]
    exact rpartTilde_append head tl htl hdig
  have hbase := decideCore_tilde_branch cfg fs f hdot hraw
  have hts := tildeStep_eq cfg fs f head tl hrp htl hdig
  constructor
  · intro hmem
    rw [hbase, hts, if_pos hmem]
  · intro hmem
    refine ⟨?_, ?_, ?_⟩
    · intro h1
      rw [hbase, hts, if_neg hmem, if_pos h1]
    · intro h2
      rw [hbase, hts, if_neg hmem, if_neg (by omega), if_pos h2]
    · intro h0
      rw [hbase, hts, if_neg hmem, if_neg (by omega), if_neg (by omega)]

/-- Claim C3: a non-dotfile file that survives the RAW-preference rule and
whose stem ends in `~<digits>` is trashed when the original (tilde suffix
stripped, same extension) is in the staging batch; otherwise the library
destination directory is globbed for names starting with the original stem:
exactly one match trashes, more than one raises, zero falls through to normal
placement. -/
theorem c3_numbered_copy (cfg : Config) (fs : FS) (f : StagedFile) (head tl : List Char)
    (hdot : isDotName f.name = false)
    (hraw : rawStep cfg fs f = none)
    (hstem : pyStem f.name = head ++ '~' :: tl)
    (htl : tl ≠ []) (hdig : tl.all isDigitChar = true) :
    (String.mk (head ++ pySuffix f.name) ∈ stagingNames fs →
      decideCore cfg fs f = Except.ok (Dest.trash f.name)) ∧
    (String.mk (head ++ pySuffix f.name) ∉ stagingNames fs →
      ((tildeGlob cfg fs f).length = 1 →
        decideCore cfg fs f = Except.ok (Dest.trash f.name)) ∧
      (1 < (tildeGlob cfg fs f).length →
        decideCore cfg fs f = Except.error (rawErr f)) ∧
      ((tildeGlob cfg fs f).length = 0 →
        decideCore cfg fs f = Except.ok (libraryDestinationFor cfg f))) :=
  numberedCopySpec cfg fs f head tl hdot hraw hstem htl hdig

/-- Witness for C3: `B_20240101_7~2.JPG` with `B_20240101_7.JPG` in the batch
is trashed. -/
theorem c3_witness :
    String.mk ("B_20240101_7".data ++ pySuffix fileC3.name) ∈ stagingNames fsC3 ∧
      decideCore cfgA fsC3 fileC3 = Except.ok (Dest.trash fileC3.name) := by
  refine ⟨by decide, ?_⟩
  exact (c3_numbered_copy cfgA fsC3 fileC3 "B_20240101_7".data "2".data (by decide) (by decide)
    (by decide) (by decide) (by decide)).1 (by decide)

theorem libDest_quarantine (cfg : Config) (f : StagedFile)
    (hnodate : filenameDateSeg f = none)
    (hmt : f.mtime = none ∨ ∃ t, f.mtime = some t ∧ cfg.cutoff < t) :
    libraryDestinationFor cfg f = Dest.quarantine f.name := by
  rcases hmt with hm | ⟨t, hm, hcut⟩
  · simp only [libraryDestinationFor, hnodate, mtimeFallback, hm]
  · simp only [libraryDestinationFor, hnodate, mtimeFallback, hm]
    rw [if_pos hcut]

/-- Claim C10 (implicit): when a file's date cannot be determined, its
computed library destination is `<quarantine>/<name>`, so the RAW-companion
and numbered-copy library checks glob the quarantine root: a single matching
`.dng` (or single original-stem match) directly in quarantine trashes the
staged file, and two or more matches raise the fatal error. -/
theorem c10_quarantine_glob (cfg : Config) (fs : FS) (f : StagedFile)
    (hdot : isDotName f.name = false)
    (hnodate : filenameDateSeg f = none)
    (hmt : f.mtime = none ∨ ∃ t, f.mtime = some t ∧ cfg.cutoff < t) :
    libRawDir cfg f = cfg.quarantine ∧
    (isJpeg f = true → stagingRawCount fs f = 0 →
      (((dirList fs cfg.quarantine).filter (fun n => lowerEq n (dngName f))).length = 1 →
        decideCore cfg fs f = Except.ok (Dest.trash f.name)) ∧
      (1 < ((dirList fs cfg.quarantine).filter (fun n => lowerEq n (dngName f))).length →
        decideCore cfg fs f = Except.error (rawErr f))) ∧
    (∀ head tl, rawStep cfg fs f = none →
      pyStem f.name = head ++ '~' :: tl → tl ≠ [] → tl.all isDigitChar = true →
      String.mk (head ++ pySuffix f.name) ∉ stagingNames fs →
      (((dirList fs cfg.quarantine).filter (fun n => startsLower n head)).length = 1 →
        decideCore cfg fs f = Except.ok (Dest.trash f.name)) ∧
      (1 < ((dirList fs cfg.quarantine).filter (fun n => startsLower n head)).length →
        decideCore cfg fs f = Except.error (rawErr f))) := by
  have hq := libDest_quarantine cfg f hnodate hmt
  have hlib : libRawDir cfg f = cfg.quarantine := by
    unfold libRawDir
    rw [hq]
    rfl
  refine ⟨hlib, ?_, ?_⟩
  · intro hj h0
    have hcnt : libRawCount cfg fs f =
        ((dirList fs cfg.quarantine).filter (fun n => lowerEq n (dngName f))).length := by
      unfold libRawCount
      rw [hlib]
    constructor
    · intro h1
      exact (rawRuleSpec cfg fs f hdot).2.2.1 hj h0 (by rw [hcnt]; exact h1)
    · intro h2
      exact (rawRuleSpec cfg fs f hdot).2.2.2.1 hj h0 (by rw [hcnt]; exact h2)
  · intro head tl hraw hstem htl hdig hmem
    have hrp : rpartTilde (pyStem f.name) = (head, tl) := by
      rw [hstem]
      exact rpartTilde_append head tl htl hdig
    have htg : tildeGlob cfg fs f =
        (dirList fs cfg.quarantine).filter (fun n => startsLower n head) := by
      unfold tildeGlob
      rw [hlib, hrp]
    have hc3 := (numberedCopySpec cfg fs f head tl hdot hraw hstem htl hdig).2 hmem
    constructor
    · intro h1
      exact hc3.1 (by rw [htg]; exact h1)
    · intro h2
      exact hc3.2.1 (by rw [htg]; exact h2)

/-- Witness for C10: `IMG_pic.jpg` with unreadable mtime finds `IMG_pic.dng`
directly in the quarantine root and is trashed. -/
theorem c10_witness :
    filenameDateSeg fileC10 = none ∧ fileC10.mtime = none ∧
      ((dirList fsC10 cfgA.quarantine).filter
        (fun n => lowerEq n (dngName fileC10))).length = 1 ∧
      decideCore cfgA fsC10 fileC10 = Except.ok (Dest.trash fileC10.name) := by
  refine ⟨by decide, rfl, by decide, ?_⟩
  exact ((c10_quarantine_glob cfgA fsC10 fileC10 (by decide) (by decide) (Or.inl rfl)).2.1
    (by decide) (by decide)).1 (by decide)

theorem decideSt_error (cfg : Config) (fs : FS) (f : StagedFile) (e : String) (fs1 : FS)
    (h : decideSt cfg fs f = (Except.error e, fs1)) :
    decideCore cfg fs f = Except.error e ∧ fs1 = fs := by
  unfold decideSt at h
  cases hc : decideCore cfg fs f with
  | error e2 =>
    rw [hc] at h
    obtain ⟨h1, h2⟩ := Prod.mk.inj h
    have he := Except.error.inj h1
    exact ⟨congrArg Except.error he, h2.symm⟩
  | ok d =>
    rw [hc] at h
    exact absurd (Prod.mk.inj h).1 (by simp)

theorem decideSt_ok (cfg : Config) (fs : FS) (f : StagedFile) (d : Dest) (fs1 : FS)
    (h : decideSt cfg fs f = (Except.ok d, fs1)) :
    decideCore cfg fs f = Except.ok d ∧
      fs1 = FS.mk fs.staging fs.entries (insertDir (destDirOf cfg d) fs.dirs) := by
  unfold decideSt at h
  cases hc : decideCore cfg fs f with
  | error e2 =>
    rw [hc] at h
    exact absurd (Prod.mk.inj h).1 (by simp)
  | ok d2 =>
    rw [hc] at h
    obtain ⟨h1, h2⟩ := Prod.mk.inj h
    have he := Except.ok.inj h1
    subst he
    exact ⟨rfl, h2.symm⟩

theorem ingestGo_ok_names (cfg : Config) (dry : Bool) :
    ∀ (l : List StagedFile) (fs : FS) (acc m : List (String × Dest)) (fs' : FS),
      ingestGo cfg dry fs l acc = (Except.ok m, fs') →
      m.map Prod.fst = (acc.reverse.map Prod.fst) ++ l.map StagedFile.name := by
  intro l
  induction l with
  | nil =>
    intro fs acc m fs' h
    simp only [ingestGo] at h
    obtain ⟨h1, h2⟩ := Prod.mk.inj h
    rw [← Except.ok.inj h1]
    simp
  | cons f rest ih =>
    intro fs acc m fs' h
    simp only [ingestGo] at h
    rcases hd : decideSt cfg fs f with ⟨r, fs1⟩
    rw [hd] at h
    cases r with
    | error e => exact absurd (Prod.mk.inj h).1 (by simp)
    | ok d =>
      have h' : ingestGo cfg dry (if dry then fs1 else applyMove cfg fs1 f d) rest
          ((f.name, d) :: acc) = (Except.ok m, fs') := h
      have hres := ih _ _ _ _ h'
      rw [hres]
      simp [List.reverse_cons, List.map_append, List.append_assoc]

theorem ingestGo_error_split (cfg : Config) (dry : Bool) :
    ∀ (l : List StagedFile) (fs : FS) (acc : List (String × Dest)) (e : String)
      (p : List (String × Dest)) (fs' : FS),
      ingestGo cfg dry fs l acc = (Except.error (e, p), fs') →
      ∃ pre g post fsMid,
        l = pre ++ g :: post ∧
        ingestGo cfg dry fs pre acc = (Except.ok p, fsMid) ∧
        decideCore cfg fsMid g = Except.error e ∧ fs' = fsMid := by
  intro l
  induction l with
  | nil =>
    intro fs acc e p fs' h
    simp only [ingestGo] at h
    exact absurd (Prod.mk.inj h).1 (by simp)
  | cons f rest ih =>
    intro fs acc e p fs' h
    simp only [ingestGo] at h
    rcases hd : decideSt cfg fs f with ⟨r, fs1⟩
    rw [hd] at h
    cases r with
    | error e2 =>
      have h1 := (Prod.mk.inj h).1
      have h2 := (Prod.mk.inj h).2
      obtain ⟨he, hp⟩ := Prod.mk.inj (Except.error.inj h1)
      obtain ⟨hco, hfs⟩ := decideSt_error cfg fs f e2 fs1 hd
      refine ⟨[], f, rest, fs, rfl, ?_, ?_, ?_⟩
      · simp only [ingestGo]
        rw [hp]
      · rw [← he]
        exact hco
      · rw [← h2, hfs]
    | ok d =>
      have h' : ingestGo cfg dry (if dry then fs1 else applyMove cfg fs1 f d) rest
          ((f.name, d) :: acc) = (Except.error (e, p), fs') := h
      obtain ⟨pre, g, post, fsMid, hsplit, hpre, hdec, hfs⟩ := ih _ _ _ _ _ h'
      refine ⟨f :: pre, g, post, fsMid, by simp [hsplit], ?_, hdec, hfs⟩
      simp only [ingestGo]
      rw [hd]
      exact hpre

/-- Claim C7: a real ingest either completes with one record per staged file
in iteration order, or, when a file's decision raises the integrity fault, it
aborts the rest of the batch: its journal is exactly the records of the files
before the failing one, whose moves remain applied in the final state. -/
theorem c7_ingest_manifest (cfg : Config) (fs : FS) :
    (∀ m fs', runIngest cfg false fs = (Except.ok m, fs') →
      m.map Prod.fst = fs.staging.map StagedFile.name) ∧
    (∀ e p fs', runIngest cfg false fs = (Except.error (e, p), fs') →
      ∃ pre g post fsMid,
        fs.staging = pre ++ g :: post ∧
        ingestGo cfg false fs pre [] = (Except.ok p, fsMid) ∧
        decideCore cfg fsMid g = Except.error e ∧
        fs' = fsMid) := by
  constructor
  · intro m fs' h
    have := ingestGo_ok_names cfg false fs.staging fs [] m fs' h
    simpa using this
  · intro e p fs' h
    exact ingestGo_error_split cfg false fs.staging fs [] e p fs' h

/-- Witness for C7: a JPEG with two case-variant RAW companions aborts the
run at the first file with an empty partial journal and an unchanged state. -/
theorem c7_witness :
    runIngest cfgA false fsC7 = (Except.error (rawErr fileC7, []), fsC7) ∧
      ∃ pre g post fsMid,
        fsC7.staging = pre ++ g :: post ∧
        ingestGo cfgA false fsC7 pre [] = (Except.ok [], fsMid) ∧
        decideCore cfgA fsMid g = Except.error (rawErr fileC7) ∧
        fsC7 = fsMid := by
  have h : runIngest cfgA false fsC7 = (Except.error (rawErr fileC7, []), fsC7) := by decide
  exact ⟨h, (c7_ingest_manifest cfgA fsC7).2 (rawErr fileC7) [] fsC7 h⟩

theorem rawStep_notJpeg (cfg : Config) (fs : FS) (f : StagedFile)
    (hj : isJpeg f = false) : rawStep cfg fs f = none := by
  unfold rawStep
  rw [if_neg (by simp [hj])]

theorem tildeStep_notApplies (cfg : Config) (fs : FS) (f : StagedFile)
    (h : tildeApplies f = false) : tildeStep cfg fs f = none := by
  have hcond : ¬((rpartTilde (pyStem f.name)).2 ≠ [] ∧
      (rpartTilde (pyStem f.name)).2.all isDigitChar = true) := by
    intro hcon
    obtain ⟨h1, h2⟩ := hcon
    unfold tildeApplies at h
    rw [h2, decide_eq_true h1] at h
    exact absurd h (by decide)
  unfold tildeStep
  rw [if_neg hcond]

theorem decideCore_globFree (cfg : Config) (f : StagedFile) (h : globFree f = true)
    (fs1 fs2 : FS) : decideCore cfg fs1 f = decideCore cfg fs2 f := by
  cases hb : isDotName f.name with
  | true =>
    unfold decideCore
    rw [hb]
    simp
  | false =>
    have hgf := h
    unfold globFree at hgf
    rw [hb] at hgf
    simp only [Bool.false_or, Bool.and_eq_true, Bool.not_eq_true'] at hgf
    obtain ⟨hj', ht'⟩ := hgf
    unfold decideCore
    rw [hb]
    simp only [Bool.false_eq_true, if_false]
    rw [rawStep_notJpeg cfg fs1 f hj', rawStep_notJpeg cfg fs2 f hj',
      tildeStep_notApplies cfg fs1 f ht', tildeStep_notApplies cfg fs2 f ht']

theorem ingestGo_dry_eq (cfg : Config) :
    ∀ (l : List StagedFile), (∀ g ∈ l, globFree g = true) →
      ∀ (fs1 fs2 : FS) (acc : List (String × Dest)),
        (ingestGo cfg true fs1 l acc).1 = (ingestGo cfg false fs2 l acc).1 := by
  intro l
  induction l with
  | nil =>
    intro _ fs1 fs2 acc
    rfl
  | cons f rest ih =>
    intro h fs1 fs2 acc
    have hf := h f (List.mem_cons_self f rest)
    have hrest : ∀ g ∈ rest, globFree g = true := fun g hg => h g (List.mem_cons_of_mem f hg)
    have hdec := decideCore_globFree cfg f hf fs1 fs2
    cases hc : decideCore cfg fs2 f with
    | error e =>
      have h1 : decideSt cfg fs1 f = (Except.error e, fs1) := by
        unfold decideSt
        rw [hdec, hc]
      have h2 : decideSt cfg fs2 f = (Except.error e, fs2) := by
        unfold decideSt
        rw [hc]
      simp only [ingestGo, h1, h2]
    | ok d =>
      have h1 : decideSt cfg fs1 f = (Except.ok d,
          FS.mk fs1.staging fs1.entries (insertDir (destDirOf cfg d) fs1.dirs)) := by
        unfold decideSt
        rw [hdec, hc]
      have h2 : decideSt cfg fs2 f = (Except.ok d,
          FS.mk fs2.staging fs2.entries (insertDir (destDirOf cfg d) fs2.dirs)) := by
        unfold decideSt
        rw [hc]
      simp only [ingestGo, h1, h2, if_true]
      exact ih hrest _ _ _

theorem ingestGo_dry_frame (cfg : Config) :
    ∀ (l : List StagedFile) (fs : FS) (acc : List (String × Dest)),
      (ingestGo cfg true fs l acc).2.staging = fs.staging ∧
      (ingestGo cfg true fs l acc).2.entries = fs.entries := by
  intro l
  induction l with
  | nil =>
    intro fs acc
    exact ⟨rfl, rfl⟩
  | cons f rest ih =>
    intro fs acc
    cases hc : decideCore cfg fs f with
    | error e =>
      have h1 : decideSt cfg fs f = (Except.error e, fs) := by
        unfold decideSt
        rw [hc]
      simp [ingestGo, h1]
    | ok d =>
      have h1 : decideSt cfg fs f = (Except.ok d,
          FS.mk fs.staging fs.entries (insertDir (destDirOf cfg d) fs.dirs)) := by
        unfold decideSt
        rw [hc]
      simp only [ingestGo, h1, if_true]
      have := ih (FS.mk fs.staging fs.entries (insertDir (destDirOf cfg d) fs.dirs))
        ((f.name, d) :: acc)
      simpa using this

/-- Counterexample for C8: with a case-variant DNG already in the library
destination directory, the dry run completes but the real run raises after
moving the staged DNG (the moved file changes the globbed state mid-run), so
the two manifests differ; and the dry run still mutates the filesystem by
creating the trash directory. -/
theorem c8_counterexample :
    (runIngest cfgA true fsC8x).1 ≠ (runIngest cfgA false fsC8x).1 ∧
      (runIngest cfgA true fsC8x).2.dirs ≠ fsC8x.dirs := by
  constructor
  · decide
  · decide

/-- Claim C8 (amended): when no staged file consults a directory listing (no
`.jpg`/`.jpeg` and no numbered-copy candidates), a dry-run ingest returns the
same manifest as a real ingest, and a dry run never moves files (staging and
directory contents are unchanged; destination directories may still be
created). -/
theorem c8_dry_run (cfg : Config) (fs : FS)
    (h : ∀ g ∈ fs.staging, globFree g = true) :
    (runIngest cfg true fs).1 = (runIngest cfg false fs).1 ∧
    (runIngest cfg true fs).2.staging = fs.staging ∧
    (runIngest cfg true fs).2.entries = fs.entries := by
  exact ⟨ingestGo_dry_eq cfg fs.staging h fs fs [],
    (ingestGo_dry_frame cfg fs.staging fs []).1,
    (ingestGo_dry_frame cfg fs.staging fs []).2⟩

/-- Witness for C8: a batch of an MP4 and a dotfile gives identical dry and
real manifests. -/
theorem c8_witness :
    (∀ g ∈ fsC8w.staging, globFree g = true) ∧
      (runIngest cfgA true fsC8w).1 = (runIngest cfgA false fsC8w).1 := by
  have h : ∀ g ∈ fsC8w.staging, globFree g = true := by decide
  exact ⟨h, (c8_dry_run cfgA fsC8w h).1⟩

theorem digitChar_ne_h (k : Nat) : digitChar k ≠ 'h' := by
  unfold digitChar
  split <;> decide

theorem libDir_getLast (cfg : Config) (y m d : Nat) :
    (cfg.library ++ "/" ++ fmt4 y ++ "/" ++ fmt2 m ++ "/" ++ fmt2 d).data.getLast? =
      some (digitChar (d % 10)) := by
  rw [String.data_append]
  rw [List.getLast?_append_of_ne_nil _ (by
    rw [show (fmt2 d).data = [digitChar (d / 10 % 10), digitChar (d % 10)] from rfl]
    simp)]
  rfl

theorem destDir_trash_only (cfg : Config) (d : Dest)
    (h : destDirOf cfg d = cfg.quarantine ++ "/trash") : isTrashD d = true := by
  cases d with
  | trash n => rfl
  | confirmTrash n =>
    exfalso
    have h' : cfg.quarantine ++ "/confirm/trash" = cfg.quarantine ++ "/trash" := h
    have hl := congrArg String.length h'
    rw [String.length_append, String.length_append] at hl
    rw [show ("/confirm/trash" : String).length = 14 from rfl,
      show ("/trash" : String).length = 6 from rfl] at hl
    omega
  | library y m d n =>
    exfalso
    have h' : cfg.library ++ "/" ++ fmt4 y ++ "/" ++ fmt2 m ++ "/" ++ fmt2 d =
        cfg.quarantine ++ "/trash" := h
    have h1 := libDir_getLast cfg y m d
    rw [h'] at h1
    rw [String.data_append] at h1
    rw [List.getLast?_append_of_ne_nil _ (by
      rw [show ("/trash" : String).data = ['/', 't', 'r', 'a', 's', 'h'] from rfl]
      simp)] at h1
    rw [show (("/trash" : String).data.getLast?) = some 'h' from rfl] at h1
    exact absurd (Option.some.inj h1).symm (digitChar_ne_h _)
  | quarantine n =>
    exfalso
    have h' : cfg.quarantine = cfg.quarantine ++ "/trash" := h
    have hl := congrArg String.length h'
    rw [String.length_append] at hl
    rw [show ("/trash" : String).length = 6 from rfl] at hl
    omega

theorem destDir_confirm_only (cfg : Config) (d : Dest)
    (h : destDirOf cfg d = cfg.quarantine ++ "/confirm/trash") : isConfirmD d = true := by
  cases d with
  | confirmTrash n => rfl
  | trash n =>
    exfalso
    have h' : cfg.quarantine ++ "/trash" = cfg.quarantine ++ "/confirm/trash" := h
    have hl := congrArg String.length h'
    rw [String.length_append, String.length_append] at hl
    rw [show ("/confirm/trash" : String).length = 14 from rfl,
      show ("/trash" : String).length = 6 from rfl] at hl
    omega
  | library y m d n =>
    exfalso
    have h' : cfg.library ++ "/" ++ fmt4 y ++ "/" ++ fmt2 m ++ "/" ++ fmt2 d =
        cfg.quarantine ++ "/confirm/trash" := h
    have h1 := libDir_getLast cfg y m d
    rw [h'] at h1
    rw [String.data_append] at h1
    rw [List.getLast?_append_of_ne_nil _ (by
      rw [show ("/confirm/trash" : String).data =
        ['/', 'c', 'o', 'n', 'f', 'i', 'r', 'm', '/', 't', 'r', 'a', 's', 'h'] from rfl]
      simp)] at h1
    rw [show (("/confirm/trash" : String).data.getLast?) = some 'h' from rfl] at h1
    exact absurd (Option.some.inj h1).symm (digitChar_ne_h _)
  | quarantine n =>
    exfalso
    have h' : cfg.quarantine = cfg.quarantine ++ "/confirm/trash" := h
    have hl := congrArg String.length h'
    rw [String.length_append] at hl
    rw [show ("/confirm/trash" : String).length = 14 from rfl] at hl
    omega

theorem mem_manifest_acc (cfg : Config) (dry : Bool) :
    ∀ (l : List StagedFile) (fs : FS) (acc : List (String × Dest)) (r : String × Dest),
      r ∈ acc → r ∈ manifestOf (ingestGo cfg dry fs l acc).1 := by
  intro l
  induction l with
  | nil =>
    intro fs acc r hr
    simpa [ingestGo, manifestOf] using hr
  | cons f rest ih =>
    intro fs acc r hr
    cases hd : decideSt cfg fs f with
    | mk res fs1 =>
      cases res with
      | error e =>
        simpa [ingestGo, hd, manifestOf] using hr
      | ok d =>
        have step : ingestGo cfg dry fs (f :: rest) acc =
            ingestGo cfg dry (if dry then fs1 else applyMove cfg fs1 f d) rest
              ((f.name, d) :: acc) := by
          simp only [ingestGo, hd]
        rw [step]
        exact ih _ _ r (List.mem_cons_of_mem _ hr)

theorem ingestGo_lazy (cfg : Config) (dry : Bool) (T : String) (P : Dest → Bool)
    (hT : ∀ dst : Dest, destDirOf cfg dst = T → P dst = true) :
    ∀ (l : List StagedFile) (fs : FS) (acc : List (String × Dest)),
      T ∉ fs.dirs →
      hasRec P (manifestOf (ingestGo cfg dry fs l acc).1) = false →
      T ∉ (ingestGo cfg dry fs l acc).2.dirs := by
  intro l
  induction l with
  | nil =>
    intro fs acc hd _
    exact hd
  | cons f rest ih =>
    intro fs acc hdirs hrec
    cases hd : decideSt cfg fs f with
    | mk res fs1 =>
      cases res with
      | error e =>
        obtain ⟨_, hfs⟩ := decideSt_error cfg fs f e fs1 hd
        have step : ingestGo cfg dry fs (f :: rest) acc = (Except.error (e, acc.reverse), fs1) := by
          simp only [ingestGo, hd]
        rw [step]
        rw [hfs]
        exact hdirs
      | ok d =>
        obtain ⟨_, hfs1⟩ := decideSt_ok cfg fs f d fs1 hd
        have step : ingestGo cfg dry fs (f :: rest) acc =
            ingestGo cfg dry (if dry then fs1 else applyMove cfg fs1 f d) rest
              ((f.name, d) :: acc) := by
          simp only [ingestGo, hd]
        rw [step] at hrec ⊢
        have hmem : (f.name, d) ∈ manifestOf
            (ingestGo cfg dry (if dry then fs1 else applyMove cfg fs1 f d) rest
              ((f.name, d) :: acc)).1 :=
          mem_manifest_acc cfg dry rest _ _ _ (List.mem_cons_self _ _)
        have hPd : P d = false := by
          cases hP : P d with
          | false => rfl
          | true =>
            exfalso
            have := (List.any_eq_false.mp hrec) (f.name, d) hmem
            simp at this
            exact absurd hP (by simpa using this)
        have hT1 : T ∉ fs1.dirs := by
          rw [hfs1]
          intro hin
          unfold insertDir at hin
          by_cases hmem2 : destDirOf cfg d ∈ fs.dirs
          · rw [if_pos hmem2] at hin
            exact hdirs hin
          · rw [if_neg hmem2] at hin
            rcases List.mem_cons.mp hin with heq | hin2
            · have := hT d heq.symm
              rw [this] at hPd
              exact Bool.noConfusion hPd
            · exact hdirs hin2
        have hT2 : T ∉ (if dry then fs1 else applyMove cfg fs1 f d).dirs := by
          cases dry with
          | true => simpa using hT1
          | false => simpa [applyMove] using hT1
        exact ih _ _ hT2 hrec

/-- Claim C9: ingesting an empty staging directory returns an empty manifest
and leaves the filesystem untouched; and the `trash` and `confirm/trash`
directories are only created by a run whose journal contains a disposition
that targets them. -/
theorem c9_empty_and_lazy (cfg : Config) :
    (∀ entries dirs, runIngest cfg false (FS.mk [] entries dirs) =
      (Except.ok [], FS.mk [] entries dirs)) ∧
    (∀ dry fs, cfg.quarantine ++ "/trash" ∉ fs.dirs →
      hasRec isTrashD (manifestOf (runIngest cfg dry fs).1) = false →
      cfg.quarantine ++ "/trash" ∉ (runIngest cfg dry fs).2.dirs) ∧
    (∀ dry fs, cfg.quarantine ++ "/confirm/trash" ∉ fs.dirs →
      hasRec isConfirmD (manifestOf (runIngest cfg dry fs).1) = false →
      cfg.quarantine ++ "/confirm/trash" ∉ (runIngest cfg dry fs).2.dirs) := by
  refine ⟨fun entries dirs => rfl, ?_, ?_⟩
  · intro dry fs h1 h2
    exact ingestGo_lazy cfg dry _ isTrashD (destDir_trash_only cfg) fs.staging fs [] h1 h2
  · intro dry fs h1 h2
    exact ingestGo_lazy cfg dry _ isConfirmD (destDir_confirm_only cfg) fs.staging fs [] h1 h2

/-- Witness for C9: an empty staging directory over a nonempty filesystem is
a no-op with an empty manifest. -/
theorem c9_witness :
    runIngest cfgA false (FS.mk [] [("x", "y")] ["d"]) =
      (Except.ok [], FS.mk [] [("x", "y")] ["d"]) :=
  (c9_empty_and_lazy cfgA).1 [("x", "y")] ["d"]
